import Mathlib

/-!
Formal model of the core algorithms of the `raiden-rs` renderer.

The Rust sources are shallowly embedded: `f32` arithmetic is idealised as
real (`ℝ`) arithmetic, `usize`/`u32` as `ℕ`, and `u16` casts as `% 65536`.
Vectors, matrices and quaternions mirror the `glam` types used by the
sources (`Vec3`, `Vec4`, `Mat3`, `Mat4`, `Quat`), with the relevant `glam`
operations (`cross`, `dot`, `normalize`, `look_at_rh`, `perspective_rh`,
`Quat::from_mat3`, `Mat4::from_scale_rotation_translation`, ...)
transcribed from their scalar implementations.
-/

/-! ## glam vector and matrix algebra (idealised over ℝ) -/

/-- `glam::Vec3`, with `f32` components idealised as reals. -/
structure Vec3 where
  x : ℝ
  y : ℝ
  z : ℝ


def Vec3.add (u v : Vec3) : Vec3 := ⟨u.x + v.x, u.y + v.y, u.z + v.z⟩

def Vec3.sub (u v : Vec3) : Vec3 := ⟨u.x - v.x, u.y - v.y, u.z - v.z⟩

def Vec3.neg (v : Vec3) : Vec3 := ⟨-v.x, -v.y, -v.z⟩

/-- Componentwise scaling `v * s` (`glam` scalar multiplication). -/
def Vec3.scale (v : Vec3) (s : ℝ) : Vec3 := ⟨v.x * s, v.y * s, v.z * s⟩

def Vec3.splat (s : ℝ) : Vec3 := ⟨s, s, s⟩

def Vec3.dot (u v : Vec3) : ℝ := u.x * v.x + u.y * v.y + u.z * v.z

/-- `glam::Vec3::cross`. -/
def Vec3.cross (u v : Vec3) : Vec3 :=
  ⟨u.y * v.z - u.z * v.y, u.z * v.x - u.x * v.z, u.x * v.y - u.y * v.x⟩

/-- `glam::Vec3::length` = `sqrt(self.dot(self))`. -/
noncomputable def Vec3.length (v : Vec3) : ℝ := Real.sqrt (v.dot v)

/-- `glam::Vec3::normalize` = `self * self.length().recip()`. -/
noncomputable def Vec3.normalize (v : Vec3) : Vec3 := v.scale (v.length)⁻¹

/-- `glam::Vec4` over ℝ. -/
structure Vec4 where
  x : ℝ
  y : ℝ
  z : ℝ
  w : ℝ


def Vec4.add (u v : Vec4) : Vec4 := ⟨u.x + v.x, u.y + v.y, u.z + v.z, u.w + v.w⟩

def Vec4.scale (v : Vec4) (s : ℝ) : Vec4 := ⟨v.x * s, v.y * s, v.z * s, v.w * s⟩

/-- Componentwise division by a scalar, as in `Vec4::new(..) / 255.0`. -/
noncomputable def Vec4.divScalar (v : Vec4) (s : ℝ) : Vec4 :=
  ⟨v.x / s, v.y / s, v.z / s, v.w / s⟩

def Vec4.splat (s : ℝ) : Vec4 := ⟨s, s, s, s⟩

/-- `glam::Mat3` (column major), used only as rotation input. -/
structure Mat3 where
  x_axis : Vec3
  y_axis : Vec3
  z_axis : Vec3

/-- `glam::Mat3::IDENTITY`, which is also `Mat3::default()`. -/
def Mat3.IDENTITY : Mat3 := ⟨⟨1, 0, 0⟩, ⟨0, 1, 0⟩, ⟨0, 0, 1⟩⟩

/-- `glam::Mat4` (column major). -/
structure Mat4 where
  x_axis : Vec4
  y_axis : Vec4
  z_axis : Vec4
  w_axis : Vec4

/-- `glam::Mat4::mul_vec4`: linear combination of the columns. -/
def Mat4.mulVec4 (m : Mat4) (v : Vec4) : Vec4 :=
  (((m.x_axis.scale v.x).add (m.y_axis.scale v.y)).add (m.z_axis.scale v.z)).add
    (m.w_axis.scale v.w)

/-- `glam::Mat4::mul_mat4` (`a * b`): transform each column of `b` by `a`. -/
def Mat4.mulMat4 (a b : Mat4) : Mat4 :=
  ⟨a.mulVec4 b.x_axis, a.mulVec4 b.y_axis, a.mulVec4 b.z_axis, a.mulVec4 b.w_axis⟩

/-- `glam::Mat4::from_scale`: a diagonal scaling matrix. -/
def Mat4.from_scale (s : Vec3) : Mat4 :=
  ⟨⟨s.x, 0, 0, 0⟩, ⟨0, s.y, 0, 0⟩, ⟨0, 0, s.z, 0⟩, ⟨0, 0, 0, 1⟩⟩

/-- `glam::Mat4::look_to_rh(eye, dir, up)`. -/
noncomputable def Mat4.look_to_rh (eye dir up : Vec3) : Mat4 :=
  let f := dir.normalize
  let s := (f.cross up).normalize
  let u := s.cross f
  ⟨⟨s.x, u.x, -f.x, 0⟩,
   ⟨s.y, u.y, -f.y, 0⟩,
   ⟨s.z, u.z, -f.z, 0⟩,
   ⟨-(eye.dot s), -(eye.dot u), eye.dot f, 1⟩⟩

/-- `glam::Mat4::look_at_rh(eye, center, up)` = `look_to_rh(eye, center - eye, up)`. -/
noncomputable def Mat4.look_at_rh (eye center up : Vec3) : Mat4 :=
  Mat4.look_to_rh eye (center.sub eye) up

/-- `glam::Mat4::perspective_rh(fov_y_radians, aspect, z_near, z_far)`. -/
noncomputable def Mat4.perspective_rh (fov_y_radians aspect z_near z_far : ℝ) : Mat4 :=
  let sin_fov := Real.sin (0.5 * fov_y_radians)
  let cos_fov := Real.cos (0.5 * fov_y_radians)
  let h := cos_fov / sin_fov
  let w := h / aspect
  let r := z_far / (z_near - z_far)
  ⟨⟨w, 0, 0, 0⟩, ⟨0, h, 0, 0⟩, ⟨0, 0, r, -1⟩, ⟨0, 0, r * z_near, 0⟩⟩

/-- `glam::Quat` over ℝ. -/
structure Quat where
  x : ℝ
  y : ℝ
  z : ℝ
  w : ℝ

/-- `glam` scalar implementation of `Quat::from_rotation_axes` (the body of
`Quat::from_mat3`), transcribed branch for branch. -/
noncomputable def Quat.from_rotation_axes (x_axis y_axis z_axis : Vec3) : Quat :=
  let m00 := x_axis.x; let m01 := x_axis.y; let m02 := x_axis.z
  let m10 := y_axis.x; let m11 := y_axis.y; let m12 := y_axis.z
  let m20 := z_axis.x; let m21 := z_axis.y; let m22 := z_axis.z
  if m22 ≤ 0 then
    let dif10 := m11 - m00
    let omm22 := 1 - m22
    if dif10 ≤ 0 then
      let four_xsq := omm22 - dif10
      let inv4x := 0.5 / Real.sqrt four_xsq
      ⟨four_xsq * inv4x, (m01 + m10) * inv4x, (m02 + m20) * inv4x, (m12 - m21) * inv4x⟩
    else
      let four_ysq := omm22 + dif10
      let inv4y := 0.5 / Real.sqrt four_ysq
      ⟨(m01 + m10) * inv4y, four_ysq * inv4y, (m12 + m21) * inv4y, (m20 - m02) * inv4y⟩
  else
    let sum10 := m11 + m00
    let opm22 := 1 + m22
    if sum10 ≤ 0 then
      let four_zsq := opm22 - sum10
      let inv4z := 0.5 / Real.sqrt four_zsq
      ⟨(m02 + m20) * inv4z, (m12 + m21) * inv4z, four_zsq * inv4z, (m01 - m10) * inv4z⟩
    else
      let four_wsq := opm22 + sum10
      let inv4w := 0.5 / Real.sqrt four_wsq
      ⟨(m12 - m21) * inv4w, (m20 - m02) * inv4w, (m01 - m10) * inv4w, four_wsq * inv4w⟩

/-- `glam::Quat::from_mat3`. -/
noncomputable def Quat.from_mat3 (m : Mat3) : Quat :=
  Quat.from_rotation_axes m.x_axis m.y_axis m.z_axis

/-- `glam`'s internal `Mat4::quat_to_axes`. -/
def Mat4.quat_to_axes (rotation : Quat) : Vec4 × Vec4 × Vec4 :=
  let x := rotation.x; let y := rotation.y; let z := rotation.z; let w := rotation.w
  let x2 := x + x
  let y2 := y + y
  let z2 := z + z
  let xx := x * x2
  let xy := x * y2
  let xz := x * z2
  let yy := y * y2
  let yz := y * z2
  let zz := z * z2
  let wx := w * x2
  let wy := w * y2
  let wz := w * z2
  (⟨1 - (yy + zz), xy + wz, xz - wy, 0⟩,
   ⟨xy - wz, 1 - (xx + zz), yz + wx, 0⟩,
   ⟨xz + wy, yz - wx, 1 - (xx + yy), 0⟩)

/-- `glam::Mat4::from_scale_rotation_translation`. -/
def Mat4.from_scale_rotation_translation (scale : Vec3) (rotation : Quat)
    (translation : Vec3) : Mat4 :=
  let axes := Mat4.quat_to_axes rotation
  ⟨axes.1.scale scale.x, axes.2.1.scale scale.y, axes.2.2.scale scale.z,
   ⟨translation.x, translation.y, translation.z, 1⟩⟩

/-! ## `Mesh::new_sphere` (src/mesh.rs)

The generator is modelled list by list: the vertex array (positions only;
the `color` and `normal` fields of `Vertex` play no role in the claims
below), the triangle index array and the edge index array.  Index values
are built as unbounded naturals first (`...Nat`), the `as u16` cast is the
final `% 65536` map. -/

def sphereLongitude (divisions : ℕ) : ℕ := 2 * divisions

def sphereLatitude (divisions : ℕ) : ℕ := divisions

/-- `let n_vertices = 2 + (latitude - 1) * longitude;` -/
def sphereNumVertices (divisions : ℕ) : ℕ :=
  2 + (sphereLatitude divisions - 1) * sphereLongitude divisions

/-- One vertex position of the ring `i ∈ 1..latitude` at slot `j ∈ 0..longitude`. -/
noncomputable def sphereRingVertex (divisions i j : ℕ) : Vec3 :=
  let phi := (i : ℝ) * Real.pi / (sphereLatitude divisions : ℝ)
  let y := Real.cos phi
  let r := Real.sin phi
  let theta := (j : ℝ) * 2 * Real.pi / (sphereLongitude divisions : ℝ)
  ⟨r * Real.cos theta, y, r * Real.sin theta⟩

/-- The sphere vertex positions: top pole, the `latitude - 1` rings, bottom pole. -/
noncomputable def sphereVertices (divisions : ℕ) : List Vec3 :=
  [⟨0, 1, 0⟩]
    ++ (List.range' 1 (sphereLatitude divisions - 1)).flatMap (fun i =>
         (List.range (sphereLongitude divisions)).map (sphereRingVertex divisions i))
    ++ [⟨0, -1, 0⟩]

/-- `let bottom_index = idx;` after all rings: `1 + (latitude - 1) * longitude`. -/
def sphereBottomIndex (divisions : ℕ) : ℕ :=
  1 + (sphereLatitude divisions - 1) * sphereLongitude divisions

/-- Top cap triangle fan (`top_index = 0`). -/
def sphereTopCap (divisions : ℕ) : List ℕ :=
  (List.range (sphereLongitude divisions)).flatMap (fun j =>
    let next := (j + 1) % sphereLongitude divisions
    [0, 1 + next, 1 + j])

/-- Middle quads, two triangles per quad. -/
def sphereMiddle (divisions : ℕ) : List ℕ :=
  (List.range (sphereLatitude divisions - 2)).flatMap (fun i =>
    let row := 1 + i * sphereLongitude divisions
    let next_row := row + sphereLongitude divisions
    (List.range (sphereLongitude divisions)).flatMap (fun j =>
      let next := (j + 1) % sphereLongitude divisions
      [row + j, row + next, next_row + j, row + next, next_row + next, next_row + j]))

/-- Bottom cap triangle fan; `base = 1 + (latitude - 2) * longitude`. -/
def sphereBottomCap (divisions : ℕ) : List ℕ :=
  (List.range (sphereLongitude divisions)).flatMap (fun j =>
    let base := 1 + (sphereLatitude divisions - 2) * sphereLongitude divisions
    let next := (j + 1) % sphereLongitude divisions
    [base + j, base + next, sphereBottomIndex divisions])

def sphereIndicesNat (divisions : ℕ) : List ℕ :=
  sphereTopCap divisions ++ sphereMiddle divisions ++ sphereBottomCap divisions

/-- The triangle index array of `new_sphere` (after the `as u16` casts). -/
def sphereIndices (divisions : ℕ) : List ℕ :=
  (sphereIndicesNat divisions).map (· % 65536)

/-- Per longitude slot `j`: top spoke, vertical ring-to-ring edges, bottom spoke. -/
def sphereEdgeSpokes (divisions : ℕ) : List ℕ :=
  (List.range (sphereLongitude divisions)).flatMap (fun j =>
    [0, 1 + j]
      ++ (List.range (sphereLatitude divisions - 2)).flatMap (fun i =>
           let current_ring := 1 + i * sphereLongitude divisions
           let next_ring := current_ring + sphereLongitude divisions
           [current_ring + j, next_ring + j])
      ++ (let last_ring := 1 + (sphereLatitude divisions - 2) * sphereLongitude divisions
          [last_ring + j, sphereBottomIndex divisions]))

/-- Horizontal latitude circles, rings `i ∈ 1..latitude`. -/
def sphereEdgeRings (divisions : ℕ) : List ℕ :=
  (List.range' 1 (sphereLatitude divisions - 1)).flatMap (fun i =>
    let ring_start := 1 + (i - 1) * sphereLongitude divisions
    (List.range (sphereLongitude divisions)).flatMap (fun j =>
      let next := (j + 1) % sphereLongitude divisions
      [ring_start + j, ring_start + next]))

def sphereEdgeIndicesNat (divisions : ℕ) : List ℕ :=
  sphereEdgeSpokes divisions ++ sphereEdgeRings divisions

/-- The edge index array of `new_sphere` (after the `as u16` casts). -/
def sphereEdgeIndices (divisions : ℕ) : List ℕ :=
  (sphereEdgeIndicesNat divisions).map (· % 65536)

/-! ### Counting helpers -/

theorem length_flatMap_const {α β : Type} (f : α → List β) (c : ℕ) (l : List α)
    (h : ∀ a ∈ l, (f a).length = c) : (l.flatMap f).length = l.length * c := by
  induction l with
  | nil => simp
  | cons a t ih =>
    simp only [List.flatMap_cons, List.length_append, List.length_cons,
      h a (List.mem_cons_self a t), ih (fun x hx => h x (List.mem_cons_of_mem a hx))]
    ring

theorem sphereVertices_length (d : ℕ) :
    (sphereVertices d).length = sphereNumVertices d := by
  simp only [sphereVertices, List.length_append, List.length_cons, List.length_nil]
  rw [length_flatMap_const _ (sphereLongitude d) _ (fun a _ => by simp)]
  simp [sphereNumVertices]
  omega

theorem sphereIndicesNat_length (d : ℕ) (h : 2 ≤ d) :
    (sphereIndicesNat d).length = 6 * sphereLongitude d * (sphereLatitude d - 1) := by
  obtain ⟨k, rfl⟩ : ∃ k, d = k + 2 := ⟨d - 2, by omega⟩
  simp only [sphereIndicesNat, sphereTopCap, sphereMiddle, sphereBottomCap,
    List.length_append, List.length_flatMap, Function.comp_def, List.length_cons,
    List.length_nil, List.map_const', List.length_range, List.sum_replicate,
    smul_eq_mul, List.length_map, sphereLatitude, sphereLongitude, Nat.add_sub_cancel]
  have h1 : k + 2 - 1 = k + 1 := by omega
  rw [h1]
  ring

theorem sphereEdgeIndicesNat_length (d : ℕ) (h : 2 ≤ d) :
    (sphereEdgeIndicesNat d).length = 2 * sphereLongitude d * (2 * sphereLatitude d - 1) := by
  obtain ⟨k, rfl⟩ : ∃ k, d = k + 2 := ⟨d - 2, by omega⟩
  simp only [sphereEdgeIndicesNat, sphereEdgeSpokes, sphereEdgeRings,
    List.length_append, List.length_flatMap, Function.comp_def, List.length_cons,
    List.length_nil, List.map_const', List.length_range, List.length_range',
    List.sum_replicate, smul_eq_mul, List.length_map, sphereLatitude, sphereLongitude,
    Nat.add_sub_cancel]
  have h1 : 2 * (k + 2) - 1 = 2 * k + 3 := by omega
  have h2 : k + 2 - 1 = k + 1 := by omega
  rw [h1, h2]
  ring

/-- Claim C1: for every `divisions = d ≥ 2`, `new_sphere` produces a vertex
array of length `2 + (d-1)·2d` and a triangle index array of length
`6·2d·(d-1)`. -/
theorem sphere_vertex_and_index_counts (d : ℕ) (h : 2 ≤ d) :
    (sphereVertices d).length = 2 + (d - 1) * (2 * d) ∧
    (sphereIndices d).length = 6 * (2 * d) * (d - 1) := by
  refine ⟨?_, ?_⟩
  · rw [sphereVertices_length]
    simp [sphereNumVertices, sphereLatitude, sphereLongitude]
  · rw [sphereIndices, List.length_map, sphereIndicesNat_length d h]
    simp [sphereLatitude, sphereLongitude]

theorem sphere_vertex_and_index_counts_witness :
    (sphereVertices 3).length = 2 + (3 - 1) * (2 * 3) ∧
    (sphereIndices 3).length = 6 * (2 * 3) * (3 - 1) :=
  sphere_vertex_and_index_counts 3 (by norm_num)

/-- The value the source binds to `n_edge_indices` (it is never used after
being computed): `2 * longitude * ((latitude - 1) + longitude + (latitude - 2))`. -/
def sphereNumEdgeIndices (divisions : ℕ) : ℕ :=
  2 * sphereLongitude divisions *
    ((sphereLatitude divisions - 1) + sphereLongitude divisions +
      (sphereLatitude divisions - 2))

/-- Claim C2, counterexample: at `divisions = 2` the edge index array has
length 24, while the claimed formula gives 40. -/
theorem sphere_edge_count_claim_false :
    ¬ ((sphereEdgeIndices 2).length = sphereNumEdgeIndices 2) := by decide

/-- Claim C2, amended: for every `divisions = d ≥ 2` the edge index array
has length `2 · longitude · (2 · latitude − 1)` (with `longitude = 2d`,
`latitude = d`), i.e. `2·2d·(2d−1)`. -/
theorem sphere_edge_count (d : ℕ) (h : 2 ≤ d) :
    (sphereEdgeIndices d).length = 2 * (2 * d) * (2 * d - 1) := by
  rw [sphereEdgeIndices, List.length_map, sphereEdgeIndicesNat_length d h]
  simp [sphereLatitude, sphereLongitude]

theorem sphere_edge_count_witness :
    (sphereEdgeIndices 2).length = 2 * (2 * 2) * (2 * 2 - 1) :=
  sphere_edge_count 2 (by norm_num)

/-! ### Index bounds -/

theorem mem_sphereIndicesNat_lt (d : ℕ) (h : 2 ≤ d) :
    ∀ x ∈ sphereIndicesNat d, x < sphereNumVertices d := by
  intro x hx
  have hL : 0 < sphereLongitude d := by simp [sphereLongitude]; omega
  have h3 : (sphereLatitude d - 1) * sphereLongitude d =
      (sphereLatitude d - 2) * sphereLongitude d + sphereLongitude d := by
    have hh : sphereLatitude d - 1 = (sphereLatitude d - 2) + 1 := by
      simp [sphereLatitude]; omega
    rw [hh, Nat.succ_mul]
  simp only [sphereIndicesNat, List.mem_append] at hx
  rcases hx with (hx | hx) | hx
  · simp only [sphereTopCap, List.mem_flatMap, List.mem_range, List.mem_cons,
      List.not_mem_nil, or_false] at hx
    obtain ⟨j, hj, hx⟩ := hx
    have hmod : (j + 1) % sphereLongitude d < sphereLongitude d := Nat.mod_lt _ hL
    simp only [sphereNumVertices]
    omega
  · simp only [sphereMiddle, List.mem_flatMap, List.mem_range, List.mem_cons,
      List.not_mem_nil, or_false] at hx
    obtain ⟨i, hi, j, hj, hx⟩ := hx
    have hmod : (j + 1) % sphereLongitude d < sphereLongitude d := Nat.mod_lt _ hL
    have h4 : (i + 1) * sphereLongitude d = i * sphereLongitude d + sphereLongitude d := by
      ring
    have h2 : (i + 1) * sphereLongitude d ≤ (sphereLatitude d - 2) * sphereLongitude d :=
      Nat.mul_le_mul_right _ (by omega)
    simp only [sphereNumVertices]
    omega
  · simp only [sphereBottomCap, List.mem_flatMap, List.mem_range, List.mem_cons,
      List.not_mem_nil, or_false] at hx
    obtain ⟨j, hj, hx⟩ := hx
    have hmod : (j + 1) % sphereLongitude d < sphereLongitude d := Nat.mod_lt _ hL
    simp only [sphereNumVertices, sphereBottomIndex] at hx ⊢
    omega

theorem mem_sphereEdgeIndicesNat_lt (d : ℕ) (h : 2 ≤ d) :
    ∀ x ∈ sphereEdgeIndicesNat d, x < sphereNumVertices d := by
  intro x hx
  have hL : 0 < sphereLongitude d := by simp [sphereLongitude]; omega
  have h3 : (sphereLatitude d - 1) * sphereLongitude d =
      (sphereLatitude d - 2) * sphereLongitude d + sphereLongitude d := by
    have hh : sphereLatitude d - 1 = (sphereLatitude d - 2) + 1 := by
      simp [sphereLatitude]; omega
    rw [hh, Nat.succ_mul]
  simp only [sphereEdgeIndicesNat, List.mem_append] at hx
  rcases hx with hx | hx
  · simp only [sphereEdgeSpokes, List.mem_flatMap, List.mem_range, List.mem_append,
      List.mem_cons, List.not_mem_nil, or_false] at hx
    obtain ⟨j, hj, hx⟩ := hx
    rcases hx with (hx | hx) | hx
    · simp only [sphereNumVertices]
      omega
    · obtain ⟨i, hi, hx⟩ := hx
      have h4 : (i + 1) * sphereLongitude d = i * sphereLongitude d + sphereLongitude d := by
        ring
      have h2 : (i + 1) * sphereLongitude d ≤ (sphereLatitude d - 2) * sphereLongitude d :=
        Nat.mul_le_mul_right _ (by omega)
      simp only [sphereNumVertices]
      omega
    · simp only [sphereBottomIndex] at hx
      simp only [sphereNumVertices]
      omega
  · simp only [sphereEdgeRings, List.mem_flatMap, List.mem_range'_1, List.mem_range,
      List.mem_cons, List.not_mem_nil, or_false] at hx
    obtain ⟨i, hi, j, hj, hx⟩ := hx
    have hmod : (j + 1) % sphereLongitude d < sphereLongitude d := Nat.mod_lt _ hL
    have h2 : (i - 1) * sphereLongitude d ≤ (sphereLatitude d - 2) * sphereLongitude d :=
      Nat.mul_le_mul_right _ (by simp only [sphereLatitude] at hi ⊢; omega)
    simp only [sphereNumVertices]
    omega

/-- Claim C3: for every `divisions = d ≥ 2`, every element of the triangle
index array and of the edge index array of `new_sphere` is strictly below
the generated vertex count, so all index lookups are in bounds. -/
theorem sphere_indices_in_bounds (d : ℕ) (h : 2 ≤ d) :
    (∀ i ∈ sphereIndices d, i < (sphereVertices d).length) ∧
    (∀ i ∈ sphereEdgeIndices d, i < (sphereVertices d).length) := by
  rw [sphereVertices_length]
  constructor
  · intro i hi
    simp only [sphereIndices, List.mem_map] at hi
    obtain ⟨y, hy, rfl⟩ := hi
    exact lt_of_le_of_lt (Nat.mod_le _ _) (mem_sphereIndicesNat_lt d h y hy)
  · intro i hi
    simp only [sphereEdgeIndices, List.mem_map] at hi
    obtain ⟨y, hy, rfl⟩ := hi
    exact lt_of_le_of_lt (Nat.mod_le _ _) (mem_sphereEdgeIndicesNat_lt d h y hy)

theorem sphere_indices_in_bounds_witness :
    (∀ i ∈ sphereIndices 2, i < (sphereVertices 2).length) ∧
    (∀ i ∈ sphereEdgeIndices 2, i < (sphereVertices 2).length) :=
  sphere_indices_in_bounds 2 (by norm_num)

/-! ## `Mesh::realloc_instance_buffer` (src/mesh.rs)

The capacity update loop `while self.instance_capacity < new_capacity
{ self.instance_capacity *= 2 }`.  The source loop does not terminate for a
zero capacity; the Lean function returns the capacity unchanged in that
(unreachable: capacities start at 100 and only double) case, and every
theorem below assumes a positive capacity. -/

def realloc_capacity (instance_capacity new_capacity : ℕ) : ℕ :=
  if 0 < instance_capacity ∧ instance_capacity < new_capacity then
    realloc_capacity (instance_capacity * 2) new_capacity
  else instance_capacity
termination_by new_capacity - instance_capacity
decreasing_by omega

theorem realloc_capacity_of_le (c n : ℕ) (h : n ≤ c) : realloc_capacity c n = c := by
  rw [realloc_capacity]
  simp only [if_neg (by omega : ¬(0 < c ∧ c < n))]

theorem realloc_capacity_pow (c n : ℕ) : ∃ k, realloc_capacity c n = c * 2 ^ k := by
  by_cases hc : 0 < c ∧ c < n
  · obtain ⟨k, hk⟩ := realloc_capacity_pow (c * 2) n
    exact ⟨k + 1, by rw [realloc_capacity, if_pos hc, hk]; ring⟩
  · exact ⟨0, by rw [realloc_capacity, if_neg hc]; ring⟩
termination_by n - c
decreasing_by omega

theorem realloc_capacity_ge (c n : ℕ) (hc : 0 < c) : n ≤ realloc_capacity c n := by
  by_cases h : c < n
  · rw [realloc_capacity, if_pos ⟨hc, h⟩]
    exact realloc_capacity_ge (c * 2) n (by omega)
  · rw [realloc_capacity, if_neg (by omega : ¬(0 < c ∧ c < n))]
    omega
termination_by n - c
decreasing_by omega

theorem realloc_capacity_min (c n : ℕ) (hc : 0 < c) :
    ∀ m, (∃ k, m = c * 2 ^ k) → n ≤ m → realloc_capacity c n ≤ m := by
  intro m ⟨k, hk⟩ hn
  by_cases h : c < n
  · rw [realloc_capacity, if_pos ⟨hc, h⟩]
    have hk1 : 1 ≤ k := by
      by_contra hk0
      have hk0' : k = 0 := by omega
      subst hk0'
      simp at hk
      omega
    obtain ⟨j, rfl⟩ : ∃ j, k = j + 1 := ⟨k - 1, by omega⟩
    refine realloc_capacity_min (c * 2) n (by omega) m ⟨j, ?_⟩ hn
    rw [hk]
    ring
  · rw [realloc_capacity, if_neg (by omega : ¬(0 < c ∧ c < n))]
    calc c = c * 1 := by ring
    _ ≤ c * 2 ^ k := Nat.mul_le_mul_left c (Nat.one_le_two_pow)
    _ = m := hk.symm
termination_by n - c
decreasing_by omega

/-- Claim C6: for capacity `C ≥ 1`, if `C < N` then `realloc_instance_buffer`
sets the capacity to the least value of the form `C·2^k` that is `≥ N`; if
`N ≤ C` the capacity is unchanged; and the capacity never decreases. -/
theorem realloc_capacity_spec (C N : ℕ) (h : 1 ≤ C) :
    (C < N →
      IsLeast {m : ℕ | (∃ k, m = C * 2 ^ k) ∧ N ≤ m} (realloc_capacity C N)) ∧
    (N ≤ C → realloc_capacity C N = C) ∧
    C ≤ realloc_capacity C N := by
  refine ⟨fun _ => ⟨⟨realloc_capacity_pow C N, realloc_capacity_ge C N h⟩,
    fun m hm => realloc_capacity_min C N h m hm.1 hm.2⟩,
    fun hn => realloc_capacity_of_le C N hn, ?_⟩
  obtain ⟨k, hk⟩ := realloc_capacity_pow C N
  rw [hk]
  calc C = C * 1 := by ring
  _ ≤ C * 2 ^ k := Nat.mul_le_mul_left C (Nat.one_le_two_pow)

theorem realloc_capacity_spec_witness :
    (100 < 250 →
      IsLeast {m : ℕ | (∃ k, m = 100 * 2 ^ k) ∧ 250 ≤ m} (realloc_capacity 100 250)) ∧
    (250 ≤ 100 → realloc_capacity 100 250 = 100) ∧
    100 ≤ realloc_capacity 100 250 :=
  realloc_capacity_spec 100 250 (by norm_num)

/-! ## `PanOrbitCamera` (src/camera.rs)

The numeric state of the camera; `f32` fields become reals.  `f32::clamp`
is modelled exactly as the Rust standard library computes it (two
successive conditional assignments); its `assert!(min <= max)` becomes the
`min ≤ max` hypotheses of the theorems that use it. -/

noncomputable def f32_clamp (x lo hi : ℝ) : ℝ :=
  let x1 := if x < lo then lo else x
  if hi < x1 then hi else x1

/-- `glam::UVec2` (u32 components idealised as naturals). -/
structure UVec2 where
  x : ℕ
  y : ℕ

structure PanOrbitCamera where
  target : Vec3
  distance : ℝ
  angle_yaw : ℝ
  angle_pitch : ℝ
  distance_min : ℝ
  distance_max : ℝ
  angle_pitch_min : ℝ
  angle_pitch_max : ℝ
  mouse_speed : ℝ
  zoom_speed : ℝ
  pan_speed : ℝ
  view_matrix : Mat4
  proj_matrix : Mat4
  z_near : ℝ
  z_far : ℝ
  aspect : ℝ
  fovy : ℝ

/-- `PanOrbitCamera::update`: clamp distance and pitch, rebuild the view
matrix from the clamped spherical coordinates. -/
noncomputable def PanOrbitCamera.update (c : PanOrbitCamera) : PanOrbitCamera :=
  let distance := f32_clamp c.distance c.distance_min c.distance_max
  let angle_pitch := f32_clamp c.angle_pitch c.angle_pitch_min c.angle_pitch_max
  let cos_y := Real.cos angle_pitch
  let sin_y := Real.sin angle_pitch
  let cos_x := Real.cos c.angle_yaw
  let sin_x := Real.sin c.angle_yaw
  let position := c.target.add
    ⟨cos_y * cos_x * distance, cos_y * sin_x * distance, sin_y * distance⟩
  { c with
    distance := distance
    angle_pitch := angle_pitch
    view_matrix := Mat4.look_at_rh position c.target ⟨0, 0, 1⟩ }

/-- `PanOrbitCamera::zoom`: early return on a zero scroll, otherwise move
the distance and re-run `update`. -/
noncomputable def PanOrbitCamera.zoom (c : PanOrbitCamera) (mouse_scroll : ℝ) :
    PanOrbitCamera :=
  if mouse_scroll = 0 then c
  else PanOrbitCamera.update { c with distance := c.distance - mouse_scroll * c.zoom_speed }

/-- A finite sequence of `zoom` calls. -/
noncomputable def PanOrbitCamera.zoom_seq (c : PanOrbitCamera) (scrolls : List ℝ) :
    PanOrbitCamera :=
  scrolls.foldl PanOrbitCamera.zoom c

/-- `PanOrbitCamera::update_aspect`. -/
noncomputable def PanOrbitCamera.update_aspect (c : PanOrbitCamera) (window_size : UVec2) :
    PanOrbitCamera :=
  let aspect : ℝ :=
    if window_size.x = 0 ∨ window_size.y = 0 then 1
    else (window_size.x : ℝ) / (window_size.y : ℝ)
  { c with proj_matrix := Mat4.perspective_rh c.fovy aspect c.z_near c.z_far }

theorem f32_clamp_mem (x lo hi : ℝ) (h : lo ≤ hi) :
    lo ≤ f32_clamp x lo hi ∧ f32_clamp x lo hi ≤ hi := by
  simp only [f32_clamp]
  split_ifs <;> constructor <;> linarith

theorem f32_clamp_of_mem (x lo hi : ℝ) (h1 : lo ≤ x) (h2 : x ≤ hi) :
    f32_clamp x lo hi = x := by
  simp only [f32_clamp]
  split_ifs <;> linarith

theorem zoom_preserves_bounds (c : PanOrbitCamera) (s : ℝ) :
    (c.zoom s).distance_min = c.distance_min ∧ (c.zoom s).distance_max = c.distance_max := by
  simp only [PanOrbitCamera.zoom, PanOrbitCamera.update]
  split_ifs <;> simp

theorem zoom_distance_mem (c : PanOrbitCamera) (s : ℝ)
    (hd : c.distance_min ≤ c.distance_max)
    (hmem : c.distance_min ≤ c.distance ∧ c.distance ≤ c.distance_max) :
    c.distance_min ≤ (c.zoom s).distance ∧ (c.zoom s).distance ≤ c.distance_max := by
  simp only [PanOrbitCamera.zoom, PanOrbitCamera.update]
  split_ifs with h
  · exact hmem
  · simpa using f32_clamp_mem (c.distance - s * c.zoom_speed) c.distance_min c.distance_max hd

/-- A concrete camera state with rational entries, used for concrete
instantiations; its distance 2000 lies outside `[1, 1000]`. -/
def testCamera : PanOrbitCamera where
  target := ⟨0, 0, 0⟩
  distance := 2000
  angle_yaw := 0
  angle_pitch := 0
  distance_min := 1
  distance_max := 1000
  angle_pitch_min := -1
  angle_pitch_max := 1
  mouse_speed := 1
  zoom_speed := 1
  pan_speed := 1
  view_matrix := ⟨⟨1, 0, 0, 0⟩, ⟨0, 1, 0, 0⟩, ⟨0, 0, 1, 0⟩, ⟨0, 0, 0, 1⟩⟩
  proj_matrix := ⟨⟨1, 0, 0, 0⟩, ⟨0, 1, 0, 0⟩, ⟨0, 0, 1, 0⟩, ⟨0, 0, 0, 1⟩⟩
  z_near := 1
  z_far := 10
  aspect := 1
  fovy := 1

/-- Claim C5, counterexample: a camera whose starting distance 2000 is
outside `[distance_min, distance_max] = [1, 1000]` (and the bounds are
ordered), together with the zoom sequence `[0]` — `zoom(0)` returns early,
so the distance after the sequence is still 2000, outside the interval. -/
theorem zoom_clamp_counterexample :
    testCamera.distance_min ≤ testCamera.distance_max ∧
    ¬ ((testCamera.zoom_seq [0]).distance ≤ testCamera.distance_max) := by
  refine ⟨by norm_num [testCamera], ?_⟩
  simp only [PanOrbitCamera.zoom_seq, List.foldl_cons, List.foldl_nil,
    PanOrbitCamera.zoom, if_pos rfl]
  norm_num [testCamera]

/-- Claim C5, amended: for every starting state whose `distance_min ≤
distance_max` and whose starting distance already lies inside
`[distance_min, distance_max]`, any finite sequence of `zoom` calls leaves
the distance inside that interval. -/
theorem zoom_seq_stays_clamped (c : PanOrbitCamera) (scrolls : List ℝ)
    (hd : c.distance_min ≤ c.distance_max)
    (hmem : c.distance_min ≤ c.distance ∧ c.distance ≤ c.distance_max) :
    c.distance_min ≤ (c.zoom_seq scrolls).distance ∧
    (c.zoom_seq scrolls).distance ≤ c.distance_max := by
  induction scrolls generalizing c with
  | nil => exact hmem
  | cons s ss ih =>
    obtain ⟨hb1, hb2⟩ := zoom_preserves_bounds c s
    have hstep := zoom_distance_mem c s hd hmem
    have := ih (c.zoom s) (by rw [hb1, hb2]; exact hd) (by rw [hb1, hb2]; exact hstep)
    rw [hb1, hb2] at this
    exact this

theorem zoom_seq_stays_clamped_witness :
    testCamera.distance_min ≤ (({ testCamera with distance := 5 } :
        PanOrbitCamera).zoom_seq [3, -2, 0]).distance ∧
    (({ testCamera with distance := 5 } : PanOrbitCamera).zoom_seq [3, -2, 0]).distance ≤
      testCamera.distance_max :=
  zoom_seq_stays_clamped { testCamera with distance := 5 } [3, -2, 0]
    (by norm_num [testCamera]) (by norm_num [testCamera])

/-- Claim C9: `update_aspect` uses aspect exactly `1.0` whenever either
window dimension is zero and `width / height` otherwise; in the latter case
the denominator is provably non-zero, so no division by zero occurs. -/
theorem update_aspect_spec (c : PanOrbitCamera) (w : UVec2) :
    ((w.x = 0 ∨ w.y = 0) →
      (c.update_aspect w).proj_matrix = Mat4.perspective_rh c.fovy 1 c.z_near c.z_far) ∧
    (w.x ≠ 0 → w.y ≠ 0 →
      ((w.y : ℝ) ≠ 0 ∧
        (c.update_aspect w).proj_matrix =
          Mat4.perspective_rh c.fovy ((w.x : ℝ) / (w.y : ℝ)) c.z_near c.z_far)) := by
  constructor
  · intro h
    simp only [PanOrbitCamera.update_aspect, if_pos h]
  · intro hx hy
    refine ⟨Nat.cast_ne_zero.mpr hy, ?_⟩
    simp only [PanOrbitCamera.update_aspect,
      if_neg (by simp [hx, hy] : ¬(w.x = 0 ∨ w.y = 0))]

theorem update_aspect_spec_witness :
    (testCamera.update_aspect ⟨0, 0⟩).proj_matrix =
      Mat4.perspective_rh testCamera.fovy 1 testCamera.z_near testCamera.z_far :=
  (update_aspect_spec testCamera ⟨0, 0⟩).1 (Or.inl rfl)

/-- Claim C10: `update` is idempotent when the clamp bounds are ordered
(the order is asserted by `f32::clamp` at runtime): a second `update`
clamps already-clamped values and rebuilds the identical view matrix. -/
theorem update_idempotent (c : PanOrbitCamera)
    (hd : c.distance_min ≤ c.distance_max)
    (hp : c.angle_pitch_min ≤ c.angle_pitch_max) :
    c.update.update = c.update := by
  obtain ⟨hd1, hd2⟩ := f32_clamp_mem c.distance c.distance_min c.distance_max hd
  obtain ⟨hp1, hp2⟩ := f32_clamp_mem c.angle_pitch c.angle_pitch_min c.angle_pitch_max hp
  simp only [PanOrbitCamera.update]
  rw [f32_clamp_of_mem _ _ _ hd1 hd2, f32_clamp_of_mem _ _ _ hp1 hp2]

theorem update_idempotent_witness :
    testCamera.update.update = testCamera.update :=
  update_idempotent testCamera (by norm_num [testCamera]) (by norm_num [testCamera])

/-! ## Draw commands (src/commands.rs) and the renderer's outline pass
(src/renderer.rs) -/

inductive MeshType where
  | Triangle
  | Cube
  | Tetrahedron
  | Sphere
deriving DecidableEq

/-- `renderer::Instance`.  The Rust field `instance` of `DrawCommand` is a
reserved word in Lean and is rendered as `inst`. -/
structure Instance where
  model_matrix : Mat4
  color : Vec4

structure DrawCommand where
  mesh_type : MeshType
  inst : Instance

structure DrawCommandBuilder where
  mesh_type : MeshType
  position : Vec3
  rotation : Mat3
  scale : ℝ
  color : Vec4

/-- `DrawCommandBuilder::new`: default position `Vec3::ZERO`, default
rotation `Mat3::IDENTITY`, scale 1, color `[1,1,1,1]`. -/
def DrawCommandBuilder.new (mesh_type : MeshType) : DrawCommandBuilder :=
  { mesh_type := mesh_type
    position := ⟨0, 0, 0⟩
    rotation := Mat3.IDENTITY
    scale := 1
    color := ⟨1, 1, 1, 1⟩ }

def DrawCommandBuilder.with_position (b : DrawCommandBuilder) (position : Vec3) :
    DrawCommandBuilder :=
  { b with position := position }

def DrawCommandBuilder.with_rotation (b : DrawCommandBuilder) (rotation : Mat3) :
    DrawCommandBuilder :=
  { b with rotation := rotation }

def DrawCommandBuilder.with_scale (b : DrawCommandBuilder) (scale : ℝ) :
    DrawCommandBuilder :=
  { b with scale := scale }

def DrawCommandBuilder.with_color (b : DrawCommandBuilder) (r g b' a : ℝ) :
    DrawCommandBuilder :=
  { b with color := ⟨r, g, b', a⟩ }

/-- `with_color_u8`: 8-bit channels, divided componentwise by 255. -/
noncomputable def DrawCommandBuilder.with_color_u8 (b : DrawCommandBuilder)
    (r g b' a : ℕ) : DrawCommandBuilder :=
  { b with color := (Vec4.mk r g b' a).divScalar 255 }

/-- `DrawCommandBuilder::build`: convert the rotation matrix to a
quaternion and compose scale, rotation and translation. -/
noncomputable def DrawCommandBuilder.build (b : DrawCommandBuilder) : DrawCommand :=
  let rotation := Quat.from_mat3 b.rotation
  let model_matrix :=
    Mat4.from_scale_rotation_translation (Vec3.splat b.scale) rotation b.position
  { mesh_type := b.mesh_type
    inst := { model_matrix := model_matrix, color := b.color } }

/-- The end-to-end cube command of claim C7: position `(4,0,0)`, identity
rotation, uniform scale `0.1`, 8-bit color `(255,0,0,255)`. -/
noncomputable def cubeTestCommand : DrawCommand :=
  (((((DrawCommandBuilder.new MeshType.Cube).with_position ⟨4, 0, 0⟩).with_rotation
      Mat3.IDENTITY).with_scale 0.1).with_color_u8 255 0 0 255).build

/-- Claim C7: the built cube instance has translation column exactly
`(4,0,0,1)`, upper-left 3×3 block exactly `0.1·I` (columns
`(0.1,0,0,0)`, `(0,0.1,0,0)`, `(0,0,0.1,0)`), and color exactly
`(1,0,0,1)` — the `u8` path divides by 255, and `255/255 = 1` exactly. -/
theorem cube_draw_command_exact :
    cubeTestCommand.inst.model_matrix.w_axis = ⟨4, 0, 0, 1⟩ ∧
    cubeTestCommand.inst.model_matrix.x_axis = ⟨0.1, 0, 0, 0⟩ ∧
    cubeTestCommand.inst.model_matrix.y_axis = ⟨0, 0.1, 0, 0⟩ ∧
    cubeTestCommand.inst.model_matrix.z_axis = ⟨0, 0, 0.1, 0⟩ ∧
    cubeTestCommand.inst.color = ⟨1, 0, 0, 1⟩ := by
  have h4 : Real.sqrt 4 = 2 := by
    rw [show (4 : ℝ) = 2 ^ 2 by norm_num, Real.sqrt_sq (by norm_num)]
  simp only [cubeTestCommand, DrawCommandBuilder.new, DrawCommandBuilder.with_position,
    DrawCommandBuilder.with_rotation, DrawCommandBuilder.with_scale,
    DrawCommandBuilder.with_color_u8, DrawCommandBuilder.build, Quat.from_mat3,
    Quat.from_rotation_axes, Mat3.IDENTITY, Mat4.from_scale_rotation_translation,
    Mat4.quat_to_axes, Vec3.splat, Vec4.scale, Vec4.divScalar, Vec4.mk.injEq]
  norm_num [h4]

/-- `Renderer::render_outline_mesh`, per command: the closure receives the
command through `iter_mut` (so it could write back); it copies the
instance, overwrites the copy's color with `Vec4::splat(1.0)`, multiplies
the copy's model matrix on the right by `Mat4::from_scale(Vec3::splat(1.005))`
and yields it when the mesh type matches.  The pair returned here is
(resulting stored command, emitted outline instance). -/
def render_outline_step (mesh_type : MeshType) (cmd : DrawCommand) :
    DrawCommand × Option Instance :=
  if cmd.mesh_type = mesh_type then
    (cmd,
      some
        { model_matrix :=
            cmd.inst.model_matrix.mulMat4 (Mat4.from_scale (Vec3.splat 1.005))
          color := Vec4.splat 1 })
  else (cmd, none)

/-- The outline instances uploaded for one mesh type. -/
def render_outline_instances (commands : List DrawCommand) (mesh_type : MeshType) :
    List Instance :=
  commands.filterMap (fun cmd => (render_outline_step mesh_type cmd).2)

/-- The command list as stored after the outline pass ran over it. -/
def render_outline_commands_after (commands : List DrawCommand) (mesh_type : MeshType) :
    List DrawCommand :=
  commands.map (fun cmd => (render_outline_step mesh_type cmd).1)

/-- Claim C8: the outline pass derives, from exactly the solid instances of
the drawn mesh type, instances with color overridden to opaque white
`(1,1,1,1)` and model matrix post-multiplied by the uniform scale `1.005`,
and it leaves the stored solid commands unchanged. -/
theorem outline_instance_derivation (commands : List DrawCommand) (mesh_type : MeshType) :
    render_outline_instances commands mesh_type =
      (commands.filter (fun cmd => cmd.mesh_type = mesh_type)).map (fun cmd =>
        { model_matrix :=
            cmd.inst.model_matrix.mulMat4 (Mat4.from_scale (Vec3.splat 1.005))
          color := ⟨1, 1, 1, 1⟩ }) ∧
    render_outline_commands_after commands mesh_type = commands := by
  constructor
  · induction commands with
    | nil => rfl
    | cons cmd rest ih =>
      simp only [render_outline_instances, render_outline_step, Vec4.splat] at ih ⊢
      by_cases h : cmd.mesh_type = mesh_type
      · simp [h, ih]
      · simp [h, ih]
  · induction commands with
    | nil => rfl
    | cons cmd rest ih =>
      simp only [render_outline_commands_after, List.map_cons] at ih ⊢
      rw [ih]
      simp only [render_outline_step]
      split_ifs <;> rfl

/-! ## `Mesh::new_tetrahedron` (src/mesh.rs)

The four vertex positions, the triangle index table and the vertex-normal
accumulation loop.  The index `v` ranges over the vertex slots `0..4`; the
(unreachable in the source) out-of-range arm of `tetraPos` returns the
origin. -/

noncomputable def tetra_a : ℝ := Real.sqrt (8 / 9)

noncomputable def tetra_b : ℝ := -1 / (2 * Real.sqrt 6)

noncomputable def tetra_c : ℝ := -Real.sqrt (2 / 9)

noncomputable def tetra_d : ℝ := Real.sqrt (2 / 3)

noncomputable def tetra_e : ℝ := Real.sqrt (3 / 8)

noncomputable def tetraPos (v : ℕ) : Vec3 :=
  match v with
  | 0 => ⟨0, tetra_a, tetra_b⟩
  | 1 => ⟨tetra_d, tetra_c, tetra_b⟩
  | 2 => ⟨-tetra_d, tetra_c, tetra_b⟩
  | 3 => ⟨0, 0, tetra_e⟩
  | _ => ⟨0, 0, 0⟩

/-- The flat triangle index array of `new_tetrahedron`. -/
def tetraIndices : List ℕ := [0, 1, 2, 0, 2, 3, 2, 1, 3, 1, 0, 3]

/-- The triangles `(indices[i], indices[i+1], indices[i+2])` visited by the
normal loop's `(0..N_INDICES).step_by(3)`. -/
def tetraTriangles : List (ℕ × ℕ × ℕ) := [(0, 1, 2), (0, 2, 3), (2, 1, 3), (1, 0, 3)]

theorem tetraTriangles_flatten :
    tetraTriangles.flatMap (fun t => [t.1, t.2.1, t.2.2]) = tetraIndices := by decide

/-- `let n = (vb - va).cross(vc - va);` -/
noncomputable def tetraFaceNormal (t : ℕ × ℕ × ℕ) : Vec3 :=
  ((tetraPos t.2.1).sub (tetraPos t.1)).cross ((tetraPos t.2.2).sub (tetraPos t.1))

/-- The accumulation loop for vertex `v`, including the `continue` on
triangles not containing `v`. -/
noncomputable def tetraNormalSum (v : ℕ) : Vec3 :=
  tetraTriangles.foldl
    (fun acc t =>
      if v ≠ t.1 ∧ v ≠ t.2.1 ∧ v ≠ t.2.2 then acc else acc.add (tetraFaceNormal t))
    ⟨0, 0, 0⟩

/-- `vertices[v].normal = v_norm.normalize();` -/
noncomputable def tetraNormal (v : ℕ) : Vec3 := (tetraNormalSum v).normalize

/-- The sum described by the spec sentence: the face normals of exactly the
triangles incident to `v`, summed. -/
noncomputable def tetraSpecNormalSum (v : ℕ) : Vec3 :=
  ((tetraTriangles.filter (fun t => v = t.1 ∨ v = t.2.1 ∨ v = t.2.2)).map
    tetraFaceNormal).foldl Vec3.add ⟨0, 0, 0⟩

/-- Centroid of the four tetrahedron vertices (the claim's reference point;
it is not computed by the source). -/
noncomputable def tetraCentroid : Vec3 :=
  ((((tetraPos 0).add (tetraPos 1)).add (tetraPos 2)).add (tetraPos 3)).scale (1 / 4)

theorem sqrt_eq_of_sq (x y : ℝ) (hy : 0 ≤ y) (h : y ^ 2 = x) : Real.sqrt x = y := by
  rw [← h, Real.sqrt_sq hy]

theorem tetra_a_eq : tetra_a = 2 / 3 * Real.sqrt 2 :=
  sqrt_eq_of_sq _ _ (by positivity)
    (by rw [mul_pow, Real.sq_sqrt (by norm_num : (0:ℝ) ≤ 2)]; norm_num)

theorem tetra_c_eq : tetra_c = -(Real.sqrt 2 / 3) := by
  rw [tetra_c, neg_inj]
  exact sqrt_eq_of_sq _ _ (by positivity)
    (by rw [div_pow, Real.sq_sqrt (by norm_num : (0:ℝ) ≤ 2)]; norm_num)

theorem tetra_d_eq : tetra_d = Real.sqrt 6 / 3 :=
  sqrt_eq_of_sq _ _ (by positivity)
    (by rw [div_pow, Real.sq_sqrt (by norm_num : (0:ℝ) ≤ 6)]; norm_num)

theorem tetra_e_eq : tetra_e = Real.sqrt 6 / 4 :=
  sqrt_eq_of_sq _ _ (by positivity)
    (by rw [div_pow, Real.sq_sqrt (by norm_num : (0:ℝ) ≤ 6)]; norm_num)

theorem tetra_b_eq : tetra_b = -(Real.sqrt 6) / 12 := by
  have h6 : Real.sqrt 6 * Real.sqrt 6 = 6 := Real.mul_self_sqrt (by norm_num)
  have h6ne : Real.sqrt 6 ≠ 0 := by positivity
  rw [tetra_b]
  field_simp
  linarith [h6]

theorem dot_normalize_pos (s p : Vec3) (hs : 0 < s.dot s) (hp : 0 < s.dot p) :
    0 < (s.normalize).dot p := by
  have hk : 0 < Real.sqrt (s.dot s) := Real.sqrt_pos.mpr hs
  have he : (s.normalize).dot p = (Real.sqrt (s.dot s))⁻¹ * (s.dot p) := by
    simp only [Vec3.normalize, Vec3.scale, Vec3.dot, Vec3.length]
    ring
  rw [he]
  exact mul_pos (inv_pos.mpr hk) hp

theorem tetraCentroid_eq : tetraCentroid = ⟨0, 0, 0⟩ := by
  simp only [tetraCentroid, tetraPos, Vec3.add, Vec3.scale, tetra_a_eq, tetra_b_eq,
    tetra_c_eq, tetra_d_eq, tetra_e_eq, Vec3.mk.injEq]
  refine ⟨by ring, by ring, by ring⟩

set_option maxHeartbeats 1600000 in
/-- Claim C4: each tetrahedron vertex normal is the normalized sum of the
non-normalized face normals of the triangles incident to that vertex, and
has strictly positive dot product with the direction from the centroid to
that vertex. -/
theorem tetra_normals_outward (v : ℕ) (hv : v < 4) :
    tetraNormal v = (tetraSpecNormalSum v).normalize ∧
    0 < (tetraNormal v).dot ((tetraPos v).sub tetraCentroid) := by
  have h2 : Real.sqrt 2 * Real.sqrt 2 = 2 := Real.mul_self_sqrt (by norm_num)
  have h6 : Real.sqrt 6 * Real.sqrt 6 = 6 := Real.mul_self_sqrt (by norm_num)
  have h2pos : 0 < Real.sqrt 2 := Real.sqrt_pos.mpr (by norm_num)
  have h6pos : 0 < Real.sqrt 6 := Real.sqrt_pos.mpr (by norm_num)
  have h26 : Real.sqrt 2 * Real.sqrt 2 * (Real.sqrt 6 * Real.sqrt 6) = 12 := by
    rw [h2, h6]; norm_num
  rw [tetraCentroid_eq]
  interval_cases v
  all_goals
    refine ⟨by
        simp only [tetraNormal]
        congr 1,
      by
        apply dot_normalize_pos <;>
          · simp only [tetraNormalSum, tetraTriangles, tetraFaceNormal, tetraPos,
              List.foldl_cons, List.foldl_nil, Vec3.add, Vec3.sub, Vec3.cross, Vec3.dot,
              tetra_a_eq, tetra_b_eq, tetra_c_eq, tetra_d_eq, tetra_e_eq]
            norm_num
            nlinarith [h2, h6, h2pos, h6pos, h26, mul_pos h2pos h6pos]⟩

theorem tetra_normals_outward_witness :
    tetraNormal 0 = (tetraSpecNormalSum 0).normalize ∧
    0 < (tetraNormal 0).dot ((tetraPos 0).sub tetraCentroid) :=
  tetra_normals_outward 0 (by norm_num)
